import Mathlib

/-
Verification development for apple_store_pickup_bot.py: a shallow embedding of
the availability checker (parse_pickup_status, background_checker), the product
store helpers (load_products/save_products), and the delete/toggle routes,
together with theorems settling the specification claims about them.
-/

set_option autoImplicit false

namespace AppleCheck

/-- Model of a Python/JSON value, as decoded by json.load or resp.json(). -/
inductive Json where
  | null
  | bool (b : Bool)
  | num (n : Int)
  | str (s : String)
  | arr (elems : List Json)
  | obj (fields : List (String × Json))

/-- Python exception value; msg is what str(e) yields in the except clauses. -/
structure PyErr where
  msg : String
deriving DecidableEq

/-- Single-quote character used by Python error messages and repr output. -/
def pyQuote : String := String.singleton (Char.ofNat 39)

/-- Python type name of a value, as it appears in error messages. -/
def pyTypeName : Json → String
  | .null => "NoneType"
  | .bool _ => "bool"
  | .num _ => "int"
  | .str _ => "str"
  | .arr _ => "list"
  | .obj _ => "dict"

/-- AttributeError raised when calling a method on a value that lacks it. -/
def attrErr (j : Json) (attr : String) : PyErr :=
  ⟨pyQuote ++ pyTypeName j ++ pyQuote ++ " object has no attribute " ++
    pyQuote ++ attr ++ pyQuote⟩

/-- TypeError raised when iterating a non-iterable value. -/
def iterErr (j : Json) : PyErr :=
  ⟨pyQuote ++ pyTypeName j ++ pyQuote ++ " object is not iterable"⟩

/-- Python truthiness of a value, bool(x). -/
def pyTruthy : Json → Bool
  | .null => false
  | .bool b => b
  | .num n => n != 0
  | .str s => s != ""
  | .arr xs => !xs.isEmpty
  | .obj kvs => !kvs.isEmpty

/-- Value bound to a key in a Python dict, none when the key is absent. -/
def jlookup : List (String × Json) → String → Option Json
  | [], _ => none
  | (k, v) :: kvs, key => if k = key then some v else jlookup kvs key

/-- Python d[k] as evaluated inside the guarded try of parse_pickup_status:
any KeyError/TypeError is collapsed to none because the except catches it. -/
def pyIndex : Json → String → Option Json
  | .obj kvs, k => jlookup kvs k
  | _, _ => none

/-- Python d.get(k): an absent key yields None, a non-dict receiver raises. -/
def pyGet : Json → String → Except PyErr Json
  | .obj kvs, k => .ok ((jlookup kvs k).getD .null)
  | j, _ => .error (attrErr j "get")

/-- Python d.get(k, default): a non-dict receiver raises AttributeError. -/
def pyGetD : Json → String → Json → Except PyErr Json
  | .obj kvs, k, d => .ok ((jlookup kvs k).getD d)
  | j, _, _ => .error (attrErr j "get")

/-- Python d.items() on the partsAvailability value: dicts only. -/
def pyItems : Json → Except PyErr (List (String × Json))
  | .obj kvs => .ok kvs
  | j => .error (attrErr j "items")

/-- Python iteration over the stores value: lists yield their elements,
strings yield their characters, dicts yield their keys, and every other
value raises TypeError (this happens outside the try of line 83). -/
def pyIter : Json → Except PyErr (List Json)
  | .arr xs => .ok xs
  | .str s => .ok (s.data.map (fun c => .str (String.singleton c)))
  | .obj kvs => .ok (kvs.map (fun kv => .str kv.1))
  | j => .error (iterErr j)

/-- ASCII lower-casing of one character, as Python str.lower() acts on the
ASCII statuses involved. -/
def pyCharLower (c : Char) : Char :=
  if 65 ≤ c.toNat ∧ c.toNat ≤ 90 then Char.ofNat (c.toNat + 32) else c

/-- ASCII upper-casing of one character, as Python str.upper() acts on the
ASCII statuses involved. -/
def pyCharUpper (c : Char) : Char :=
  if 97 ≤ c.toNat ∧ c.toNat ≤ 122 then Char.ofNat (c.toNat - 32) else c

/-- Python s.lower() on a string value. -/
def pyLower (s : String) : String := ⟨s.data.map pyCharLower⟩

/-- Python s.upper() on a string value. -/
def pyUpperS (s : String) : String := ⟨s.data.map pyCharUpper⟩

/-- Python s.upper(): raises AttributeError on a non-string receiver. -/
def pyUpper : Json → Except PyErr String
  | .str s => .ok (pyUpperS s)
  | j => .error (attrErr j "upper")

mutual

/-- Python repr() of a value, used when containers are string-formatted. -/
def pyRepr : Json → String
  | .null => "None"
  | .bool true => "True"
  | .bool false => "False"
  | .num n => toString n
  | .str s => pyQuote ++ s ++ pyQuote
  | .arr xs => "[" ++ pyReprSeq xs ++ "]"
  | .obj kvs => "\x7b" ++ pyReprFields kvs ++ "\x7d"

/-- Comma-separated repr of list elements. -/
def pyReprSeq : List Json → String
  | [] => ""
  | [x] => pyRepr x
  | x :: xs => pyRepr x ++ ", " ++ pyReprSeq xs

/-- Comma-separated repr of dict entries. -/
def pyReprFields : List (String × Json) → String
  | [] => ""
  | [(k, v)] => pyQuote ++ k ++ pyQuote ++ ": " ++ pyRepr v
  | (k, v) :: kvs => pyQuote ++ k ++ pyQuote ++ ": " ++ pyRepr v ++ ", " ++ pyReprFields kvs

end

/-- Python str() of a value, as interpolated by an f-string. -/
def pyStr : Json → String
  | .str s => s
  | j => pyRepr j

/-- One dict appended to results by parse_pickup_status (lines 99-107). -/
structure Row where
  store : Json
  city : Json
  model : String
  pickupDisplay : Json
  quote : Json

/-- Line 94: info.get("pickupDisplay") or info.get("pickupType"), with the
short-circuit of the Python or operator made explicit. -/
def pickupDisplayOf (info : Json) : Except PyErr Json :=
  match pyGet info "pickupDisplay" with
  | .error e => .error e
  | .ok pd1 => if pyTruthy pd1 then .ok pd1 else pyGet info "pickupType"

/-- Lines 95-98: info.get("pickupSearchQuote") or the messageTypes fallback
chain, with the short-circuit of the Python or operator made explicit. -/
def quoteOf (info : Json) : Except PyErr Json :=
  match pyGet info "pickupSearchQuote" with
  | .error e => .error e
  | .ok q1 =>
    if pyTruthy q1 then .ok q1
    else
      match pyGetD info "messageTypes" (.obj []) with
      | .error e => .error e
      | .ok mt =>
        match pyGetD mt "availability" (.obj []) with
        | .error e => .error e
        | .ok av => pyGet av "storeSelectionEnabledMessage"

/-- Line 104: str(pickup_display).lower() if isinstance(pickup_display, str)
else pickup_display. -/
def lowerIfStr : Json → Json
  | .str s => .str (pyLower s)
  | j => j

/-- Body of the inner per-SKU loop of parse_pickup_status (lines 93-107). -/
def parse_info (store_name city : Json) (sku : String) (info : Json) :
    Except PyErr Row :=
  match pickupDisplayOf info with
  | .error e => .error e
  | .ok pickup_display =>
    match quoteOf info with
    | .error e => .error e
    | .ok quote =>
      .ok { store := store_name, city := city, model := sku,
            pickupDisplay := lowerIfStr pickup_display,
            quote := quote }

/-- Inner loop of parse_pickup_status over partsAvailability items; a raise
abandons the loop and the rows collected so far. -/
def parse_infos (store_name city : Json) :
    List (String × Json) → Except PyErr (List Row)
  | [] => .ok []
  | (sku, info) :: rest =>
    match parse_info store_name city sku info with
    | .error e => .error e
    | .ok row =>
      match parse_infos store_name city rest with
      | .error e => .error e
      | .ok rows => .ok (row :: rows)

/-- Line 90: store.get("storeName") or store.get("name"). -/
def storeNameOf (store : Json) : Except PyErr Json :=
  match pyGet store "storeName" with
  | .error e => .error e
  | .ok sn1 => if pyTruthy sn1 then .ok sn1 else pyGet store "name"

/-- Line 91: store.get("city") or store.get("storeCity"). -/
def cityOf (store : Json) : Except PyErr Json :=
  match pyGet store "city" with
  | .error e => .error e
  | .ok c1 => if pyTruthy c1 then .ok c1 else pyGet store "storeCity"

/-- Body of the per-store loop of parse_pickup_status (lines 89-107). -/
def parse_store (store : Json) : Except PyErr (List Row) :=
  match storeNameOf store with
  | .error e => .error e
  | .ok store_name =>
    match cityOf store with
    | .error e => .error e
    | .ok city =>
      match pyGetD store "partsAvailability" (.obj []) with
      | .error e => .error e
      | .ok per_sku =>
        match pyItems per_sku with
        | .error e => .error e
        | .ok items => parse_infos store_name city items

/-- Outer loop of parse_pickup_status over the stores value. -/
def parse_stores : List Json → Except PyErr (List Row)
  | [] => .ok []
  | s :: ss =>
    match parse_store s with
    | .error e => .error e
    | .ok rows =>
      match parse_stores ss with
      | .error e => .error e
      | .ok rest => .ok (rows ++ rest)

/-- Guarded extraction data["body"]["content"]["pickupMessage"]["stores"]
(lines 83-86): the try/except collapses any failure to the empty list, but a
successfully extracted non-list value is kept as is. -/
def storesOf (data : Json) : Json :=
  match (((pyIndex data "body").bind (fun j => pyIndex j "content")).bind
      (fun j => pyIndex j "pickupMessage")).bind (fun j => pyIndex j "stores") with
  | some v => v
  | none => .arr []

/-- Translation of parse_pickup_status (lines 82-108). -/
def parse_pickup_status (data : Json) : Except PyErr (List Row) :=
  match pyIter (storesOf data) with
  | .error e => .error e
  | .ok stores => parse_stores stores

/-- One record of products.json, as read by background_checker and the routes;
enabled is none when the key is absent (product.get("enabled", True)). -/
structure Product where
  name : String
  model : String
  link : String
  pincode : String
  enabled : Option Bool
deriving DecidableEq

/-- One value of the in-memory latest_status dict (line 33). -/
structure StatusEntry where
  status : Json
  message : String

/-- The latest_status dict, keyed by product model. -/
abbrev StatusMap := List (String × StatusEntry)

/-- Read latest_status[k], none when the key is absent. -/
def getStatus : StatusMap → String → Option StatusEntry
  | [], _ => none
  | (k, v) :: m, key => if k = key then some v else getStatus m key

/-- Python dict assignment latest_status[key] = v: replaces the entry in place
when the key exists, appends it otherwise. -/
def setStatus : StatusMap → String → StatusEntry → StatusMap
  | [], key, v => [(key, v)]
  | (k, u) :: m, key, v =>
    if k = key then (k, v) :: m else (k, u) :: setStatus m key v

/-- Outcome of the fetch_availability call: the decoded JSON body on success,
or str(e) of the raised requests exception. -/
inductive FetchResult where
  | ok (data : Json)
  | err (msg : String)

/-- Observable actions of background_checker: a provider probe
(fetch_availability(pincode, model)), a Telegram notification
(send_telegram_message), or a time.sleep pause. The source contains no
time.sleep call, so no translated operation ever emits a sleep event. -/
inductive Event where
  | probe (model pincode : String)
  | notify (text : String)
  | sleep (seconds : Nat)
deriving DecidableEq

/-- Recognizer for pacing pauses in a trace. -/
def Event.isSleep : Event → Bool
  | .sleep _ => true
  | _ => false

/-- Number of notifications dispatched in a trace. -/
def countNotify (evs : List Event) : Nat :=
  evs.countP (fun ev => match ev with | .notify _ => true | _ => false)

/-- Number of pacing pauses in a trace. -/
def countSleep (evs : List Event) : Nat := evs.countP Event.isSleep

/-- Python comparison r["pickupDisplay"] == "available" (line 136). -/
def isAvailable (j : Json) : Bool :=
  match j with
  | .str s => s == "available"
  | _ => false

/-- Text of the Telegram message built at line 137. -/
def stockMsg (p : Product) (product_msg : String) : String :=
  "✅ IN STOCK!\n" ++ p.name ++ " (" ++ p.model ++ ")\n" ++ product_msg ++
    "\n" ++ p.link

/-- Row loop of background_checker (lines 131-140): threads product_status and
product_msg, sends the Telegram message and breaks on the first available row;
the .upper() call on a non-string pickupDisplay raises out to the enclosing
except clause. -/
def processRows (p : Product) :
    List Row → Json → String → Except PyErr (Json × String × List Event)
  | [], product_status, product_msg => .ok (product_status, product_msg, [])
  | r :: rs, _, _ =>
    match pyUpper r.pickupDisplay with
    | .error e => .error e
    | .ok up =>
      let product_msg :=
        pyStr r.store ++ " (" ++ pyStr r.city ++ ") → " ++ up ++ " : " ++ pyStr r.quote
      if isAvailable r.pickupDisplay then
        .ok (r.pickupDisplay, product_msg, [Event.notify (stockMsg p product_msg)])
      else
        processRows p rs r.pickupDisplay product_msg

/-- Try block of background_checker for one enabled product (lines 123-146),
with the fetch outcome supplied by an oracle: fetch, parse, the row loop, and
the except clause that records an error entry from str(e). -/
def processItem (p : Product) (fr : FetchResult) : StatusEntry × List Event :=
  match fr with
  | .err e => (⟨Json.str "error", e⟩, [Event.probe p.model p.pincode])
  | .ok data =>
    match parse_pickup_status data with
    | .error err => (⟨Json.str "error", err.msg⟩, [Event.probe p.model p.pincode])
    | .ok rows =>
      match processRows p rows (Json.str "unavailable") "No nearby stores found" with
      | .error err => (⟨Json.str "error", err.msg⟩, [Event.probe p.model p.pincode])
      | .ok (st, msg, evs) => (⟨st, msg⟩, Event.probe p.model p.pincode :: evs)

/-- Per-product body of background_checker (lines 117-146): the disabled skip
at lines 118-121, otherwise the guarded probe. -/
def checkItem (p : Product) (fr : FetchResult) : StatusEntry × List Event :=
  if !(p.enabled.getD true) then (⟨Json.str "disabled", "Disabled by user"⟩, [])
  else processItem p fr

/-- One full pass of the while loop over the product list read at cycle start:
updates latest_status per product and concatenates the per-product traces. -/
def runCycle (m0 : StatusMap) (products : List Product)
    (fetch : Product → FetchResult) : StatusMap × List Event :=
  match products with
  | [] => (m0, [])
  | p :: ps =>
    let r := checkItem p (fetch p)
    let rest := runCycle (setStatus m0 p.model r.1) ps fetch
    (rest.1, r.2 ++ rest.2)

/-- Several consecutive passes of the while loop, one fetch oracle per cycle;
line 148 notes that the loop restarts immediately with no sleep. -/
def runCycles (m0 : StatusMap) (products : List Product) :
    List (Product → FetchResult) → StatusMap × List Event
  | [] => (m0, [])
  | f :: fs =>
    let c := runCycle m0 products f
    let rest := runCycles c.1 products fs
    (rest.1, c.2 ++ rest.2)

/-- JSON record written by save_products for one product. -/
def encodeProduct (p : Product) : Json :=
  .obj ([("name", .str p.name), ("model", .str p.model), ("link", .str p.link),
         ("pincode", .str p.pincode)] ++
    (match p.enabled with
     | some b => [("enabled", Json.bool b)]
     | none => []))

/-- Product record read back from one JSON object of products.json. -/
def decodeProduct (j : Json) : Option Product :=
  match j with
  | .obj kvs =>
    match jlookup kvs "name", jlookup kvs "model", jlookup kvs "link",
        jlookup kvs "pincode" with
    | some (.str n), some (.str m), some (.str l), some (.str pc) =>
      match jlookup kvs "enabled" with
      | none => some ⟨n, m, l, pc, none⟩
      | some (.bool b) => some ⟨n, m, l, pc, some b⟩
      | some _ => none
    | _, _, _, _ => none
  | _ => none

/-- Decode of every record of the stored list. -/
def decodeProducts : List Json → Option (List Product)
  | [] => some []
  | j :: js =>
    match decodeProduct j, decodeProducts js with
    | some p, some ps => some (p :: ps)
    | _, _ => none

/-- JSON value json.dump writes to products.json in save_products. -/
def save_products (products : List Product) : Json :=
  .arr (products.map encodeProduct)

/-- Product list json.load yields back from the stored JSON in load_products. -/
def load_products (j : Json) : Option (List Product) :=
  match j with
  | .arr xs => decodeProducts xs
  | _ => none

/-- Process state: the durable products.json content together with the
in-memory latest_status dict of line 33. -/
structure ServerState where
  file : Json
  latest_status : StatusMap

/-- Process restart: the file survives, latest_status is reinitialised to the
empty dict of line 33. -/
def restart (s : ServerState) : ServerState := ⟨s.file, []⟩

/-- Value returned by a Flask route handler. -/
inductive Response where
  | redirect (target : String)
deriving DecidableEq

/-- Translation of the delete_product route (lines 259-264): filters the list
by model, saves it, and unconditionally redirects to index. -/
def delete_product (products : List Product) (model : String) :
    List Product × Response :=
  (products.filter (fun p => p.model != model), Response.redirect "index")

/-- Translation of the toggle_product route (lines 267-274): flips enabled on
every product whose model matches, saves, and redirects to index. -/
def toggle_product (products : List Product) (model : String) :
    List Product × Response :=
  (products.map (fun p =>
      if p.model == model then { p with enabled := some (!(p.enabled.getD true)) }
      else p),
   Response.redirect "index")

/-- Shape discipline for the messageTypes fallback chain of line 97: the
messageTypes value (defaulted to a dict) and its availability value (defaulted
to a dict) are both dicts. -/
def msgTypesOk (kvs : List (String × Json)) : Bool :=
  match (jlookup kvs "messageTypes").getD (.obj []) with
  | .obj kvs2 =>
    match (jlookup kvs2 "availability").getD (.obj []) with
    | .obj _ => true
    | _ => false
  | _ => false

/-- Shape discipline for one partsAvailability entry: a dict whose messageTypes
chain, when it would be consulted, again meets the dict shapes the code
assumes. -/
def infoOk (info : Json) : Bool :=
  match info with
  | .obj kvs =>
    if pyTruthy ((jlookup kvs "pickupSearchQuote").getD .null) then true
    else msgTypesOk kvs
  | _ => false

/-- Shape discipline for one store: a dict whose partsAvailability value
(defaulted to a dict) is a dict of well-shaped entries. -/
def storeOk (store : Json) : Bool :=
  match store with
  | .obj kvs =>
    match (jlookup kvs "partsAvailability").getD (.obj []) with
    | .obj items => items.all (fun kv => infoOk kv.2)
    | _ => false
  | _ => false

/-- Shape discipline for a whole response: the extracted stores value is a list
of well-shaped stores (the guarded extraction makes it a list whenever the
stores path is absent or ill-typed). -/
def dataOk (data : Json) : Bool :=
  match storesOf data with
  | .arr stores => stores.all storeOk
  | _ => false

/-- Fixture: partsAvailability entry with an available pickup. -/
def infoAvail : Json :=
  .obj [("pickupDisplay", .str "available"),
        ("pickupSearchQuote", .str "Pickup available")]

/-- Fixture: partsAvailability entry with an unavailable pickup. -/
def infoUnavail : Json :=
  .obj [("pickupDisplay", .str "unavailable"),
        ("pickupSearchQuote", .str "Currently unavailable")]

/-- Fixture: partsAvailability entry with an ineligible pickup. -/
def infoInelig : Json :=
  .obj [("pickupDisplay", .str "ineligible"),
        ("pickupSearchQuote", .str "Not eligible for pickup")]

/-- Fixture: full provider response with one store carrying the given entry. -/
def mkData (info : Json) : Json :=
  .obj [("body", .obj [("content", .obj [("pickupMessage", .obj [("stores",
    .arr [.obj [("storeName", .str "Saket"), ("city", .str "Delhi"),
                ("partsAvailability", .obj [("MYH33HN/A", info)])]])])])])]

/-- Fixture: response observing Available. -/
def availData : Json := mkData infoAvail

/-- Fixture: response observing Unavailable. -/
def unavailData : Json := mkData infoUnavail

/-- Fixture: response whose only row is ineligible. -/
def ineligData : Json := mkData infoInelig

/-- Fixture: a tracked product. -/
def pA : Product :=
  ⟨"iPhone 16 Pro", "MYH33HN/A", "https://www.apple.com/in/shop/buy-iphone",
   "110017", some true⟩

/-- Fixture: a second tracked product with a distinct model. -/
def pB : Product :=
  ⟨"iPad Air", "MUWG3HN/A", "https://www.apple.com/in/shop/buy-ipad",
   "400001", some true⟩

/-- Fixture: a disabled tracked product. -/
def pD : Product :=
  ⟨"MacBook Air", "MRXV3HN/A", "https://www.apple.com/in/shop/buy-mac",
   "560001", some false⟩

/-- Fixture: provider response with an ill-typed partsAvailability, on which
parse_pickup_status raises AttributeError at the .items() call. -/
def badData : Json :=
  .obj [("body", .obj [("content", .obj [("pickupMessage", .obj [("stores",
    .arr [.obj [("storeName", .str "Saket"),
                ("partsAvailability", .num 5)]])])])])]

/-- Fixture: observation sequence Unavailable, Available, Available,
Unavailable, Available, one fetch oracle per cycle. -/
def seqUAAUA : List (Product → FetchResult) :=
  [fun _ => .ok unavailData, fun _ => .ok availData, fun _ => .ok availData,
   fun _ => .ok unavailData, fun _ => .ok availData]

/-- Fixture: observation sequence Available, Error, Available. -/
def seqAEA : List (Product → FetchResult) :=
  [fun _ => .ok availData,
   fun _ => .err "HTTPSConnectionPool: Read timed out.",
   fun _ => .ok availData]

/-- Fixture: fetch oracle that fails for pA and succeeds for every other
product. -/
def fetchFailA : Product → FetchResult :=
  fun q => if q.model == pA.model then .err "boom" else .ok availData

/-- Reading back the key just written into latest_status yields the new entry. -/
theorem getStatus_setStatus_self (m : StatusMap) (k : String) (v : StatusEntry) :
    getStatus (setStatus m k v) k = some v := by
  induction m with
  | nil => simp [setStatus, getStatus]
  | cons kv m ih =>
    obtain ⟨k2, u⟩ := kv
    by_cases h : k2 = k
    · simp [setStatus, getStatus, h]
    · simp [setStatus, getStatus, h, ih]

/-- Writing one key into latest_status leaves every other key unchanged. -/
theorem getStatus_setStatus_ne (m : StatusMap) (k k2 : String) (v : StatusEntry)
    (h : k ≠ k2) : getStatus (setStatus m k v) k2 = getStatus m k2 := by
  induction m with
  | nil => simp [setStatus, getStatus, h]
  | cons kv m ih =>
    obtain ⟨k3, u⟩ := kv
    by_cases h3 : k3 = k
    · subst h3; simp [setStatus, getStatus, h]
    · simp [setStatus, getStatus, h3, ih]

/-- The trace of one cycle is the concatenation of the per-product traces,
independently of the incoming latest_status dict. -/
theorem runCycle_trace (products : List Product) (fetch : Product → FetchResult) :
    ∀ m0 : StatusMap,
    (runCycle m0 products fetch).2 =
      (products.map (fun p => (checkItem p (fetch p)).2)).flatten := by
  induction products with
  | nil => intro m0; rfl
  | cons p ps ih => intro m0; simp [runCycle, ih]

/-- A cycle over products none of which carries the key k leaves
latest_status[k] unchanged. -/
theorem runCycle_getStatus_untouched (fetch : Product → FetchResult) (k : String) :
    ∀ (products : List Product) (m0 : StatusMap),
    (∀ p ∈ products, p.model ≠ k) →
    getStatus (runCycle m0 products fetch).1 k = getStatus m0 k := by
  intro products
  induction products with
  | nil => intro m0 _; rfl
  | cons p ps ih =>
    intro m0 h
    simp only [runCycle]
    rw [ih _ (fun q hq => h q (.tail _ hq))]
    exact getStatus_setStatus_ne _ _ _ _ (h p (.head _))

/-- After a cycle over products with pairwise distinct models, the entry of a
member product is exactly the outcome of its own isolated check. -/
theorem runCycle_getStatus_mem (fetch : Product → FetchResult) (p : Product) :
    ∀ (products : List Product) (m0 : StatusMap),
    p ∈ products → (products.map Product.model).Nodup →
    getStatus (runCycle m0 products fetch).1 p.model =
      some (checkItem p (fetch p)).1 := by
  intro products
  induction products with
  | nil => intro m0 hp; cases hp
  | cons q ps ih =>
    intro m0 hp hnd
    rw [List.map_cons, List.nodup_cons] at hnd
    obtain ⟨hq, hnd2⟩ := hnd
    cases hp with
    | head =>
      simp only [runCycle]
      rw [runCycle_getStatus_untouched fetch _ ps _
        (fun r hr hrk => hq (by rw [← hrk]; exact List.mem_map_of_mem Product.model hr))]
      exact getStatus_setStatus_self _ _ _
    | tail _ hp2 =>
      simp only [runCycle]
      exact ih _ hp2 hnd2

/-- A probe event heads the trace of every enabled product's check. -/
theorem checkItem_probe_head (q : Product) (fr : FetchResult)
    (hq : q.enabled.getD true = true) :
    ∃ t, (checkItem q fr).2 = Event.probe q.model q.pincode :: t := by
  unfold checkItem
  rw [if_neg (by simp [hq])]
  cases fr with
  | err e => exact ⟨[], rfl⟩
  | ok data =>
    cases hpp : parse_pickup_status data with
    | error err => exact ⟨[], by simp only [processItem, hpp]⟩
    | ok rows =>
      cases hr : processRows q rows (Json.str "unavailable") "No nearby stores found" with
      | error err => exact ⟨[], by simp only [processItem, hpp, hr]⟩
      | ok tuple =>
        obtain ⟨st, m, evs⟩ := tuple
        exact ⟨evs, by simp only [processItem, hpp, hr]⟩

/-- Every enabled member product is probed during a cycle. -/
theorem probe_mem_runCycle (products : List Product) (fetch : Product → FetchResult)
    (m0 : StatusMap) (q : Product) (hq : q ∈ products)
    (hqe : q.enabled.getD true = true) :
    Event.probe q.model q.pincode ∈ (runCycle m0 products fetch).2 := by
  rw [runCycle_trace]
  obtain ⟨t, ht⟩ := checkItem_probe_head q (fetch q) hqe
  exact List.mem_flatten.mpr
    ⟨(checkItem q (fetch q)).2, List.mem_map_of_mem _ hq, ht ▸ List.mem_cons_self _ _⟩

/-- Probe events do not count as notifications. -/
theorem countNotify_cons_probe (mo pc : String) (evs : List Event) :
    countNotify (Event.probe mo pc :: evs) = countNotify evs := by
  simp [countNotify, List.countP_cons]

/-- Along the row loop started from a non-available status, exactly one
notification is sent when the final status is available and none otherwise. -/
theorem processRows_notifyCount (p : Product) :
    ∀ (rows : List Row) (st0 : Json) (msg0 : String), isAvailable st0 = false →
    ∀ st m evs, processRows p rows st0 msg0 = .ok (st, m, evs) →
    countNotify evs = if isAvailable st then 1 else 0 := by
  intro rows
  induction rows with
  | nil =>
    intro st0 msg0 h0 st m evs heq
    simp only [processRows, Except.ok.injEq, Prod.mk.injEq] at heq
    obtain ⟨h1, _, h3⟩ := heq
    subst h1; subst h3
    simp [countNotify, h0]
  | cons r rs ih =>
    intro st0 msg0 h0 st m evs heq
    simp only [processRows] at heq
    split at heq
    · exact Except.noConfusion heq
    · split at heq
      · next hav =>
          simp only [Except.ok.injEq, Prod.mk.injEq] at heq
          obtain ⟨h1, _, h3⟩ := heq
          subst h1; subst h3
          simp [countNotify, hav, List.countP_cons]
      · next hav =>
          exact ih r.pickupDisplay _ (Bool.not_eq_true _ ▸ hav) st m evs heq

/-- Per check of a product, exactly one notification is sent when the recorded
status is available and none otherwise, whatever the fetch outcome. -/
theorem checkItem_notifyCount (p : Product) (fr : FetchResult) :
    countNotify (checkItem p fr).2 =
      if isAvailable (checkItem p fr).1.status then 1 else 0 := by
  unfold checkItem
  by_cases he : p.enabled.getD true
  · rw [if_neg (by simp [he])]
    cases fr with
    | err e => rfl
    | ok data =>
      cases hpp : parse_pickup_status data with
      | error err => simp only [processItem, hpp]; rfl
      | ok rows =>
        cases hr : processRows p rows (Json.str "unavailable") "No nearby stores found" with
        | error err => simp only [processItem, hpp, hr]; rfl
        | ok tuple =>
          obtain ⟨st, m, evs⟩ := tuple
          simp only [processItem, hpp, hr]
          have h := processRows_notifyCount p rows _ _ (by rfl) st m evs hr
          rw [countNotify_cons_probe]
          exact h
  · rw [if_pos (by simp [he])]
    rfl

/-- The trace of consecutive cycles over a single tracked product is the
concatenation of per-cycle traces, each depending only on that cycle's fetch
outcome, never on the status state left by earlier cycles. -/
theorem runCycles_trace_single (p : Product) :
    ∀ (fetches : List (Product → FetchResult)) (m0 : StatusMap),
    (runCycles m0 [p] fetches).2 =
      (fetches.map (fun f => (checkItem p (f p)).2)).flatten := by
  intro fetches
  induction fetches with
  | nil => intro m0; rfl
  | cons f fs ih =>
    intro m0
    simp only [runCycles]
    rw [ih]
    have h1 : (runCycle m0 [p] f).2 = (checkItem p (f p)).2 := by
      simp [runCycle]
    rw [h1, List.map_cons, List.flatten_cons]

/-- Appending one more cycle appends exactly that cycle's per-product trace,
whatever status state the history left behind. -/
theorem runCycles_append_last (p : Product) :
    ∀ (hist : List (Product → FetchResult)) (m0 : StatusMap)
      (f : Product → FetchResult),
    (runCycles m0 [p] (hist ++ [f])).2 =
      (runCycles m0 [p] hist).2 ++ (checkItem p (f p)).2 := by
  intro hist
  induction hist with
  | nil =>
    intro m0 f
    simp only [List.nil_append, runCycles]
    simp [runCycle]
  | cons g gs ih =>
    intro m0 f
    simp only [List.cons_append, runCycles, List.append_eq]
    rw [ih]
    simp [List.append_assoc]

/-- The row loop emits notification events only, never a pacing pause. -/
theorem processRows_no_sleep (p : Product) :
    ∀ (rows : List Row) (st0 : Json) (msg0 : String) (st : Json) (m : String)
      (evs : List Event),
    processRows p rows st0 msg0 = .ok (st, m, evs) → countSleep evs = 0 := by
  intro rows
  induction rows with
  | nil =>
    intro st0 msg0 st m evs heq
    simp only [processRows, Except.ok.injEq, Prod.mk.injEq] at heq
    obtain ⟨_, _, h3⟩ := heq
    subst h3
    rfl
  | cons r rs ih =>
    intro st0 msg0 st m evs heq
    simp only [processRows] at heq
    split at heq
    · exact Except.noConfusion heq
    · split at heq
      · simp only [Except.ok.injEq, Prod.mk.injEq] at heq
        obtain ⟨_, _, h3⟩ := heq
        subst h3
        rfl
      · exact ih r.pickupDisplay _ st m evs heq

/-- No check of any product ever emits a pacing pause. -/
theorem checkItem_no_sleep (p : Product) (fr : FetchResult) :
    countSleep (checkItem p fr).2 = 0 := by
  unfold checkItem
  by_cases he : p.enabled.getD true
  · rw [if_neg (by simp [he])]
    cases fr with
    | err e => rfl
    | ok data =>
      cases hpp : parse_pickup_status data with
      | error err => simp only [processItem, hpp]; rfl
      | ok rows =>
        cases hr : processRows p rows (Json.str "unavailable") "No nearby stores found" with
        | error err => simp only [processItem, hpp, hr]; rfl
        | ok tuple =>
          obtain ⟨st, m, evs⟩ := tuple
          simp only [processItem, hpp, hr]
          have h := processRows_no_sleep p rows _ _ st m evs hr
          simp [countSleep, List.countP_cons, Event.isSleep] at h ⊢
          exact h
  · rw [if_pos (by simp [he])]
    rfl

/-- One cycle never emits a pacing pause. -/
theorem runCycle_no_sleep (products : List Product) (fetch : Product → FetchResult) :
    ∀ m0 : StatusMap, countSleep (runCycle m0 products fetch).2 = 0 := by
  induction products with
  | nil => intro m0; rfl
  | cons p ps ih =>
    intro m0
    simp only [runCycle]
    simp [countSleep, List.countP_append] at ih ⊢
    exact ⟨by simpa [countSleep] using checkItem_no_sleep p (fetch p), ih _⟩

/-- Status component of a row-loop result, none when the loop raised. -/
def resultStatus : Except PyErr (Json × String × List Event) → Option Json
  | .ok (st, _, _) => some st
  | .error _ => none

/-- When every pickupDisplay the loop scans is a string, the row loop succeeds
and returns the available status at the first available row, and otherwise the
pickupDisplay of the last row, falling back to the incoming status. -/
theorem processRows_status (p : Product) :
    ∀ (rows : List Row) (st0 : Json) (msg0 : String),
    (∀ r ∈ rows, ∃ s, r.pickupDisplay = Json.str s) →
    resultStatus (processRows p rows st0 msg0) =
      some (if rows.any (fun r => isAvailable r.pickupDisplay) then Json.str "available"
            else (rows.map Row.pickupDisplay).getLastD st0) := by
  intro rows
  induction rows with
  | nil =>
    intro st0 msg0 _
    simp [processRows, resultStatus, List.getLastD]
  | cons r rs ih =>
    intro st0 msg0 h
    obtain ⟨s, hs⟩ := h r (.head _)
    by_cases hav : isAvailable r.pickupDisplay = true
    · have hsa : s = "available" := by
        rw [hs] at hav
        simpa [isAvailable] using hav
      simp only [processRows, hs, pyUpper]
      rw [if_pos (hs ▸ hav)]
      simp [resultStatus, List.any_cons, hav, hs, hsa,
        show isAvailable (Json.str "available") = true from rfl]
    · simp only [processRows, hs, pyUpper]
      rw [if_neg (hs ▸ hav)]
      rw [← hs, ih r.pickupDisplay _ (fun r2 h2 => h r2 (.tail _ h2))]
      have hanyc : (r :: rs).any (fun r2 => isAvailable r2.pickupDisplay) =
          rs.any (fun r2 => isAvailable r2.pickupDisplay) := by
        simp [List.any_cons, Bool.not_eq_true _ ▸ hav]
      rw [hanyc, List.map_cons, List.getLastD_cons]

/-- The pickupDisplay fallback chain cannot raise on a dict entry. -/
theorem pickupDisplayOf_obj (kvs : List (String × Json)) :
    ∃ v, pickupDisplayOf (.obj kvs) = .ok v := by
  simp only [pickupDisplayOf, pyGet]
  by_cases h : pyTruthy ((jlookup kvs "pickupDisplay").getD .null)
  · rw [if_pos h]; exact ⟨_, rfl⟩
  · rw [if_neg h]; exact ⟨_, rfl⟩

/-- The quote fallback chain cannot raise on a well-shaped dict entry. -/
theorem quoteOf_ok (kvs : List (String × Json)) (h : infoOk (.obj kvs) = true) :
    ∃ v, quoteOf (.obj kvs) = .ok v := by
  simp only [infoOk] at h
  simp only [quoteOf, pyGet]
  by_cases hq : pyTruthy ((jlookup kvs "pickupSearchQuote").getD .null)
  · rw [if_pos hq]; exact ⟨_, rfl⟩
  · rw [if_neg hq]
    rw [if_neg hq] at h
    unfold msgTypesOk at h
    simp only [pyGetD]
    cases hmt : (jlookup kvs "messageTypes").getD (.obj []) with
    | null => rw [hmt] at h; simp at h
    | bool b => rw [hmt] at h; simp at h
    | num n => rw [hmt] at h; simp at h
    | str s => rw [hmt] at h; simp at h
    | arr xs => rw [hmt] at h; simp at h
    | obj kvs2 =>
      rw [hmt] at h
      dsimp only at h
      dsimp only
      cases hav2 : (jlookup kvs2 "availability").getD (.obj []) with
      | null => rw [hav2] at h; simp at h
      | bool b => rw [hav2] at h; simp at h
      | num n => rw [hav2] at h; simp at h
      | str s => rw [hav2] at h; simp at h
      | arr xs => rw [hav2] at h; simp at h
      | obj kvs3 => exact ⟨_, rfl⟩

/-- A well-shaped partsAvailability entry parses into a row without raising. -/
theorem parse_info_ok (sn c : Json) (sku : String) (info : Json)
    (h : infoOk info = true) : ∃ row, parse_info sn c sku info = .ok row := by
  cases info
  case obj kvs =>
    obtain ⟨pd, hpd⟩ := pickupDisplayOf_obj kvs
    obtain ⟨q, hq⟩ := quoteOf_ok kvs h
    exact ⟨{ store := sn, city := c, model := sku,
             pickupDisplay := lowerIfStr pd, quote := q },
           by simp only [parse_info, hpd, hq]⟩
  all_goals simp [infoOk] at h

/-- A list of well-shaped partsAvailability entries parses without raising. -/
theorem parse_infos_ok (sn c : Json) :
    ∀ (items : List (String × Json)),
    (∀ kv ∈ items, infoOk kv.2 = true) →
    ∃ rows, parse_infos sn c items = .ok rows := by
  intro items
  induction items with
  | nil => intro _; exact ⟨[], rfl⟩
  | cons kv rest ih =>
    intro h
    obtain ⟨sku, info⟩ := kv
    obtain ⟨row, hrow⟩ := parse_info_ok sn c sku info (h (sku, info) (.head _))
    obtain ⟨rows, hrows⟩ := ih (fun kv2 h2 => h kv2 (.tail _ h2))
    exact ⟨row :: rows, by simp only [parse_infos, hrow, hrows]⟩

/-- A well-shaped store parses without raising. -/
theorem parse_store_ok (store : Json) (h : storeOk store = true) :
    ∃ rows, parse_store store = .ok rows := by
  cases store
  case obj kvs =>
    simp only [storeOk] at h
    have hsn : ∃ v, storeNameOf (.obj kvs) = .ok v := by
      simp only [storeNameOf, pyGet]
      by_cases h1 : pyTruthy ((jlookup kvs "storeName").getD .null)
      · rw [if_pos h1]; exact ⟨_, rfl⟩
      · rw [if_neg h1]; exact ⟨_, rfl⟩
    have hc : ∃ v, cityOf (.obj kvs) = .ok v := by
      simp only [cityOf, pyGet]
      by_cases h1 : pyTruthy ((jlookup kvs "city").getD .null)
      · rw [if_pos h1]; exact ⟨_, rfl⟩
      · rw [if_neg h1]; exact ⟨_, rfl⟩
    obtain ⟨sn, hsn⟩ := hsn
    obtain ⟨c, hc⟩ := hc
    cases hpa : (jlookup kvs "partsAvailability").getD (.obj []) with
    | null => rw [hpa] at h; simp at h
    | bool b => rw [hpa] at h; simp at h
    | num n => rw [hpa] at h; simp at h
    | str s => rw [hpa] at h; simp at h
    | arr xs => rw [hpa] at h; simp at h
    | obj items =>
      rw [hpa] at h
      obtain ⟨rows, hrows⟩ :=
        parse_infos_ok sn c items (fun kv hkv => List.all_eq_true.mp h kv hkv)
      exact ⟨rows,
        by simp only [parse_store, hsn, hc, pyGetD, hpa, pyItems, hrows]⟩
  all_goals simp [storeOk] at h

/-- A list of well-shaped stores parses without raising. -/
theorem parse_stores_ok :
    ∀ (stores : List Json), (∀ s ∈ stores, storeOk s = true) →
    ∃ rows, parse_stores stores = .ok rows := by
  intro stores
  induction stores with
  | nil => intro _; exact ⟨[], rfl⟩
  | cons s ss ih =>
    intro h
    obtain ⟨rows, hrows⟩ := parse_store_ok s (h s (.head _))
    obtain ⟨rest, hrest⟩ := ih (fun s2 h2 => h s2 (.tail _ h2))
    exact ⟨rows ++ rest, by simp only [parse_stores, hrows, hrest]⟩

/-- A shape-conformant response parses to some row list without raising. -/
theorem parse_ok_of_dataOk (data : Json) (h : dataOk data = true) :
    ∃ rows, parse_pickup_status data = .ok rows := by
  unfold dataOk at h
  cases hst : storesOf data with
  | null => rw [hst] at h; simp at h
  | bool b => rw [hst] at h; simp at h
  | num n => rw [hst] at h; simp at h
  | str s => rw [hst] at h; simp at h
  | obj kvs => rw [hst] at h; simp at h
  | arr stores =>
    rw [hst] at h
    dsimp only at h
    obtain ⟨rows, hrows⟩ :=
      parse_stores_ok stores (fun s hs => List.all_eq_true.mp h s hs)
    exact ⟨rows, by simp only [parse_pickup_status, hst, pyIter, hrows]⟩

/-- Decoding the record written for a product restores the product exactly,
whether or not the enabled key is present. -/
theorem decodeProduct_encodeProduct (p : Product) :
    decodeProduct (encodeProduct p) = some p := by
  obtain ⟨n, m, l, pc, en⟩ := p
  cases en <;> rfl

/-- Decoding the list written for a product list restores it exactly. -/
theorem decodeProducts_encode (ps : List Product) :
    decodeProducts (ps.map encodeProduct) = some ps := by
  induction ps with
  | nil => rfl
  | cons p ps ih => simp [decodeProducts, decodeProduct_encodeProduct, ih]

/-- C1 counterexample: for the observation sequence [Unavailable, Available,
Available, Unavailable, Available] the checker dispatches three notifications
(at positions 2, 3 and 5), not the two that the edge-trigger claim predicts:
the code notifies on every cycle that observes an available row, never
consulting the previously observed status. -/
theorem notify_edge_counterexample :
    countNotify (runCycles [] [pA] seqUAAUA).2 = 3 ∧
    countNotify (runCycles [] [pA] seqUAAUA).2 ≠ 2 := by
  have h : countNotify (runCycles [] [pA] seqUAAUA).2 = 3 := by rfl
  exact ⟨h, by rw [h]; decide⟩

/-- C1 (corrected): notification dispatch is level-triggered, not
edge-triggered. The trace of any run over a tracked product is the
concatenation of per-cycle fragments each determined by that cycle's fetch
outcome alone — the checker consults no previous-status state — and within one
cycle exactly one notification is sent iff the status the cycle records is the
available status. -/
theorem notify_level_triggered (p : Product) (m0 : StatusMap)
    (fetches : List (Product → FetchResult)) :
    (runCycles m0 [p] fetches).2 =
      (fetches.map (fun f => (checkItem p (f p)).2)).flatten ∧
    ∀ fr : FetchResult,
      countNotify (checkItem p fr).2 =
        if isAvailable (checkItem p fr).1.status then 1 else 0 :=
  ⟨runCycles_trace_single p fetches m0, fun fr => checkItem_notifyCount p fr⟩

/-- C2 counterexample: the observation sequence [Available, Error, Available]
yields two notifications in total, i.e. one additional notification after the
first, contradicting the claim that zero additional notifications occur. -/
theorem error_reset_counterexample :
    countNotify (runCycles [] [pA] seqAEA).2 = 2 ∧
    countNotify (runCycles [] [pA] seqAEA).2 ≠ 1 := by
  have h : countNotify (runCycles [] [pA] seqAEA).2 = 2 := by rfl
  exact ⟨h, by rw [h]; decide⟩

/-- C2 (corrected): an Error observation indeed does not reset notification
state, but only because no such state exists: the trace of a run extends cycle
by cycle with a fragment depending only on that cycle's fetch outcome, and an
error cycle itself notifies zero times — so [Available, Error, Available]
yields one additional notification after the first, not zero, since the second
Available cycle notifies like every Available cycle does. -/
theorem error_does_not_reset_stateless (p : Product) (m0 : StatusMap)
    (hist : List (Product → FetchResult)) (f : Product → FetchResult)
    (e : String) :
    (runCycles m0 [p] (hist ++ [f])).2 =
      (runCycles m0 [p] hist).2 ++ (checkItem p (f p)).2 ∧
    countNotify (checkItem p (FetchResult.err e)).2 = 0 := by
  refine ⟨runCycles_append_last p hist m0 f, ?_⟩
  unfold checkItem
  by_cases he : p.enabled.getD true
  · rw [if_neg (by simp [he])]; rfl
  · rw [if_pos (by simp [he])]; rfl

/-- C6 counterexample: a cycle over two tracked products contains no pacing
pause at all, while the claim requires a wait after each processed item. -/
theorem pacing_counterexample :
    ¬ 0 < countSleep (runCycle [] [pA, pB] (fun _ => FetchResult.ok availData)).2 := by
  have h : countSleep (runCycle [] [pA, pB] (fun _ => FetchResult.ok availData)).2 = 0 := by
    rfl
  rw [h]
  decide

/-- C6 (corrected): the polling loop performs no pacing at all: no sequence of
passes over any product list under any fetch outcomes ever emits a sleep
event, neither between items nor between cycles — line 148 states that the
loop restarts immediately without sleeping. -/
theorem no_pacing (m0 : StatusMap) (products : List Product)
    (fetches : List (Product → FetchResult)) :
    countSleep (runCycles m0 products fetches).2 = 0 := by
  induction fetches generalizing m0 with
  | nil => rfl
  | cons f fs ih =>
    simp only [runCycles]
    simp [countSleep, List.countP_append] at ih ⊢
    exact ⟨by simpa [countSleep] using runCycle_no_sleep products f m0, ih _⟩

/-- C3 counterexample: a successful probe returning one row that is not
available records the row's own pickupDisplay string "ineligible" as the
status, not "unavailable" as the claim requires for every case without an
available row. -/
theorem status_mapping_counterexample :
    (checkItem pA (FetchResult.ok ineligData)).1.status = Json.str "ineligible" ∧
    (checkItem pA (FetchResult.ok ineligData)).1.status ≠ Json.str "unavailable" := by
  have h : (checkItem pA (FetchResult.ok ineligData)).1.status =
      Json.str "ineligible" := by rfl
  refine ⟨h, ?_⟩
  rw [h]
  intro hh
  injection hh with hs
  exact absurd hs (by decide)

/-- C3 (corrected): for a successful probe whose rows all carry string
pickupDisplay values, the status recorded for an enabled item is the available
status when some row is available, and otherwise the pickupDisplay string of
the last row, falling back to "unavailable" only when no rows were
returned — not canonically "unavailable" in every non-available case. -/
theorem status_mapping_amended (p : Product) (data : Json) (rows : List Row)
    (hpe : p.enabled.getD true = true)
    (hparse : parse_pickup_status data = .ok rows)
    (hs : ∀ r ∈ rows, ∃ s, r.pickupDisplay = Json.str s) :
    (checkItem p (FetchResult.ok data)).1.status =
      (if rows.any (fun r => isAvailable r.pickupDisplay) then Json.str "available"
       else (rows.map Row.pickupDisplay).getLastD (Json.str "unavailable")) := by
  have h := processRows_status p rows (Json.str "unavailable")
    "No nearby stores found" hs
  cases hr : processRows p rows (Json.str "unavailable") "No nearby stores found" with
  | error e => rw [hr] at h; exact absurd h (by simp [resultStatus])
  | ok tuple =>
    obtain ⟨st, m, evs⟩ := tuple
    rw [hr] at h
    simp only [resultStatus, Option.some.injEq] at h
    unfold checkItem
    rw [if_neg (by simp [hpe])]
    simp only [processItem, hparse, hr]
    exact h

/-- Fixture: the row parse_pickup_status extracts from ineligData. -/
def rowInelig : Row :=
  ⟨Json.str "Saket", Json.str "Delhi", "MYH33HN/A",
   Json.str (pyLower "ineligible"), Json.str "Not eligible for pickup"⟩

/-- C3 witness: the corrected status theorem instantiated at the ineligible
fixture. -/
theorem status_mapping_amended_witness :
    (checkItem pA (FetchResult.ok ineligData)).1.status =
      (if [rowInelig].any (fun r => isAvailable r.pickupDisplay) then Json.str "available"
       else ([rowInelig].map Row.pickupDisplay).getLastD (Json.str "unavailable")) :=
  status_mapping_amended pA ineligData [rowInelig] rfl rfl
    (fun r hr => by
      cases hr with
      | head => exact ⟨pyLower "ineligible", rfl⟩
      | tail _ h2 => cases h2)

/-- C4 (confirmed): per-item failures are isolated. In one cycle over products
with pairwise distinct models, an enabled product whose probe raises is marked
with the error status carrying str(e) as its message, while every other
product's status entry is still exactly the outcome of its own isolated check,
and every other enabled product is still probed. -/
theorem per_item_isolation (products : List Product)
    (fetch : Product → FetchResult) (m0 : StatusMap) (e : String) (p q : Product)
    (hp : p ∈ products) (hq : q ∈ products)
    (hnd : (products.map Product.model).Nodup)
    (hpe : p.enabled.getD true = true) (hfp : fetch p = FetchResult.err e)
    (hqe : q.enabled.getD true = true) :
    getStatus (runCycle m0 products fetch).1 p.model =
      some ⟨Json.str "error", e⟩ ∧
    getStatus (runCycle m0 products fetch).1 q.model =
      some (checkItem q (fetch q)).1 ∧
    Event.probe q.model q.pincode ∈ (runCycle m0 products fetch).2 := by
  refine ⟨?_, runCycle_getStatus_mem fetch q products m0 hq hnd,
    probe_mem_runCycle products fetch m0 q hq hqe⟩
  rw [runCycle_getStatus_mem fetch p products m0 hp hnd, hfp]
  unfold checkItem
  rw [if_neg (by simp [hpe])]
  rfl

/-- C4 witness: isolation instantiated at a concrete two-product cycle where
the first product's probe raises. -/
theorem per_item_isolation_witness :
    getStatus (runCycle [] [pA, pB] fetchFailA).1 pA.model =
      some ⟨Json.str "error", "boom"⟩ ∧
    getStatus (runCycle [] [pA, pB] fetchFailA).1 pB.model =
      some (checkItem pB (fetchFailA pB)).1 ∧
    Event.probe pB.model pB.pincode ∈ (runCycle [] [pA, pB] fetchFailA).2 :=
  per_item_isolation [pA, pB] fetchFailA [] "boom" pA pB (by decide) (by decide)
    (by decide) (by decide) rfl (by decide)

/-- Fixture: a latest_status entry as an available observation leaves it. -/
def entryAvail : StatusEntry :=
  ⟨Json.str "available", "Saket (Delhi) → AVAILABLE : Pickup available"⟩

/-- C5 counterexample: a product's last observed status lives only in the
in-memory latest_status dict; after a restart, reading it back yields nothing,
so lastStatus does not round-trip as the claim requires. -/
theorem persistence_counterexample :
    getStatus (ServerState.mk (save_products [pA])
      [(pA.model, entryAvail)]).latest_status pA.model = some entryAvail ∧
    getStatus (restart (ServerState.mk (save_products [pA])
      [(pA.model, entryAvail)])).latest_status pA.model = none :=
  ⟨by rfl, rfl⟩

/-- C5 (corrected): the stored product records round-trip exactly across a
restart — all persisted fields including enabled are restored — but the
per-item status map is reinitialised to empty, because latest_status is an
in-memory dict and no lastStatus field is ever persisted. -/
theorem persistence_roundtrip_amended (ps : List Product) (m : StatusMap) :
    load_products (restart ⟨save_products ps, m⟩).file = some ps ∧
    (restart ⟨save_products ps, m⟩).latest_status = [] :=
  ⟨by simp [restart, load_products, save_products, decodeProducts_encode], rfl⟩

/-- C7 (confirmed): a cycle over a disabled product records the disabled
status with the fixed message, performs no probe and no notification, and
after re-enabling the product through the toggle route, any later cycle over
the updated list probes it again, with no restart involved. -/
theorem disabled_item_cycle (p : Product) (fetch : Product → FetchResult)
    (m0 : StatusMap) (hdis : p.enabled = some false) :
    (∀ fr, checkItem p fr =
      (⟨Json.str "disabled", "Disabled by user"⟩, [])) ∧
    getStatus (runCycle m0 [p] fetch).1 p.model =
      some ⟨Json.str "disabled", "Disabled by user"⟩ ∧
    (runCycle m0 [p] fetch).2 = [] ∧
    ∀ (fetch2 : Product → FetchResult) (m1 : StatusMap),
      Event.probe p.model p.pincode ∈
        (runCycle m1 (toggle_product [p] p.model).1 fetch2).2 := by
  have hstep : ∀ fr, checkItem p fr =
      (⟨Json.str "disabled", "Disabled by user"⟩, []) := by
    intro fr
    unfold checkItem
    rw [if_pos (by simp [hdis])]
  refine ⟨hstep, ?_, ?_, ?_⟩
  · simp only [runCycle, hstep (fetch p)]
    exact getStatus_setStatus_self _ _ _
  · simp [runCycle, hstep (fetch p)]
  · intro fetch2 m1
    have htog : (toggle_product [p] p.model).1 =
        [{ p with enabled := some true }] := by
      simp [toggle_product, hdis]
    rw [htog]
    exact probe_mem_runCycle _ fetch2 m1 { p with enabled := some true }
      (.head _) (by simp)

/-- C7 witness: the disabled-item theorem instantiated at the disabled
fixture product. -/
theorem disabled_item_cycle_witness :
    checkItem pD (FetchResult.ok availData) =
      (⟨Json.str "disabled", "Disabled by user"⟩, []) ∧
    getStatus (runCycle [] [pD] (fun _ => FetchResult.ok availData)).1 pD.model =
      some ⟨Json.str "disabled", "Disabled by user"⟩ ∧
    (runCycle [] [pD] (fun _ => FetchResult.ok availData)).2 = [] ∧
    Event.probe pD.model pD.pincode ∈
      (runCycle [] (toggle_product [pD] pD.model).1
        (fun _ => FetchResult.ok availData)).2 := by
  have h := disabled_item_cycle pD (fun _ => FetchResult.ok availData) [] rfl
  exact ⟨h.1 (FetchResult.ok availData), h.2.1, h.2.2.1,
    h.2.2.2 (fun _ => FetchResult.ok availData) []⟩

/-- C8 counterexample: delete_product answers with the same redirect response
whether or not the model is present — it never returns false on a missing id;
the store is nonetheless left unchanged on a miss. -/
theorem remove_returns_counterexample :
    (delete_product [pA] "NOSUCH").1 = [pA] ∧
    (delete_product [pA] "NOSUCH").2 = Response.redirect "index" ∧
    (delete_product [pA] pA.model).2 = Response.redirect "index" := by
  refine ⟨?_, rfl, rfl⟩
  rfl

/-- Mapping a function that fixes every member of a list fixes the list. -/
theorem map_eq_self_of {α : Type} (l : List α) (f : α → α)
    (h : ∀ a ∈ l, f a = a) : l.map f = l := by
  induction l with
  | nil => rfl
  | cons a l ih => simp [h a (.head _), ih (fun b hb => h b (.tail _ hb))]

/-- C8 (corrected): removal is idempotent and total — deleting the same model
twice equals deleting it once, a miss leaves the stored list unchanged, and
the caller never fails — but the route returns no boolean: every call answers
with the same redirect to index, on hit and miss alike. -/
theorem remove_idempotent_amended (products : List Product) (model : String) :
    (delete_product (delete_product products model).1 model).1 =
      (delete_product products model).1 ∧
    (delete_product products model).2 = Response.redirect "index" ∧
    ((∀ p ∈ products, p.model ≠ model) →
      (delete_product products model).1 = products) := by
  refine ⟨?_, rfl, ?_⟩
  · simp only [delete_product]
    rw [List.filter_filter]
    simp
  · intro h
    simp only [delete_product]
    rw [List.filter_eq_self]
    intro a ha
    simpa using h a ha

/-- C8 witness: the amended removal theorem applied at a store that does not
contain the target model. -/
theorem remove_idempotent_amended_witness :
    (delete_product [pA] "NOSUCH").1 = [pA] :=
  (remove_idempotent_amended [pA] "NOSUCH").2.2 (by decide)

/-- C9 counterexample: parse_pickup_status raises an AttributeError to its
caller on a response whose partsAvailability field is present but numeric,
contradicting the claim that the parse step never raises for any raw
response value. -/
theorem parse_total_counterexample :
    ∃ e, parse_pickup_status badData = Except.error e := ⟨_, rfl⟩

/-- C9 (corrected): parsing never raises on shape-conformant responses — every
absent field degrades to a default and an absent or ill-typed stores path
degrades to the empty row list, as the empty-object case shows — but a present
field of unexpected type, such as a numeric partsAvailability, raises to the
caller. -/
theorem parse_defensive_amended (data : Json) (h : dataOk data = true) :
    (∃ rows, parse_pickup_status data = Except.ok rows) ∧
    parse_pickup_status (Json.obj []) = Except.ok [] :=
  ⟨parse_ok_of_dataOk data h, rfl⟩

/-- C9 witness: the tolerant-parse theorem applied to the well-shaped
availability fixture. -/
theorem parse_defensive_amended_witness :
    (∃ rows, parse_pickup_status availData = Except.ok rows) ∧
    parse_pickup_status (Json.obj []) = Except.ok [] :=
  parse_defensive_amended availData (by decide)

/-- C10 (confirmed): toggling by model flips exactly the enabled flag of every
product whose model matches — an absent flag defaults to true before
flipping — preserves every other field of matching products, leaves
non-matching products entirely unchanged, preserves the list length, and
leaves the whole list unchanged when no product matches. -/
theorem toggle_frame (products : List Product) (model : String) :
    (toggle_product products model).1.length = products.length ∧
    (∀ (i : Nat) (p q : Product), products[i]? = some p →
      (toggle_product products model).1[i]? = some q →
      q.name = p.name ∧ q.model = p.model ∧ q.link = p.link ∧
      q.pincode = p.pincode ∧
      (p.model = model → q.enabled = some (!(p.enabled.getD true))) ∧
      (p.model ≠ model → q = p)) ∧
    ((∀ p ∈ products, p.model ≠ model) →
      (toggle_product products model).1 = products) := by
  refine ⟨by simp [toggle_product], ?_, ?_⟩
  · intro i p q hp hq
    simp only [toggle_product, List.getElem?_map, hp, Option.map_some'] at hq
    rw [Option.some.injEq] at hq
    by_cases hm : p.model = model
    · rw [if_pos (by simp [hm])] at hq
      subst hq
      exact ⟨rfl, rfl, rfl, rfl, fun _ => rfl, fun hne => absurd hm hne⟩
    · rw [if_neg (by simp [hm])] at hq
      subst hq
      exact ⟨rfl, rfl, rfl, rfl, fun hm2 => absurd hm2 hm, fun _ => rfl⟩
  · intro h
    simp only [toggle_product]
    exact map_eq_self_of products _ (fun a ha => by rw [if_neg (by simp [h a ha])])

/-- C10 witness: the toggle frame theorem applied at concrete stores, showing
the matching product's flag flipped and a non-matching store unchanged. -/
theorem toggle_frame_witness :
    (Product.mk pA.name pA.model pA.link pA.pincode (some false)).enabled =
      some (!(pA.enabled.getD true)) ∧
    (toggle_product [pB] pA.model).1 = [pB] :=
  ⟨((toggle_frame [pA, pB] pA.model).2.1 0 pA
      (Product.mk pA.name pA.model pA.link pA.pincode (some false))
      (by decide) (by decide)).2.2.2.2.1 rfl,
   (toggle_frame [pB] pA.model).2.2 (by decide)⟩

end AppleCheck
